import Mathlib

/-!
Verification of the whiteboard application in `src/src/App.tsx`.

The source file contains two near-duplicate variants of the application,
separated by a document separator: the first variant (lines 1-248) has no
undo/redo history, the second variant (lines 249-617) adds a history log,
an undo/redo keyboard handler and a text-input mode.  The development below
embeds the second (richer) variant as the main model; the first variant's
pure core functions are embedded separately in namespace `V1` so the two
can be compared.

JavaScript numbers are modelled as real numbers (the source performs real
arithmetic through `Math.sqrt`, `Math.abs`, `Math.min`, `Math.max`; none of
the comparisons appearing in the claims are near the boundary of a
floating-point rounding error).  Array indices and shape ids are natural
numbers; the history cursor `currentIndex`, which starts at `-1`, is an
integer.
-/

/-- 2-D point, `interface Point` (App.tsx lines 267-270). -/
structure Point where
  x : ℝ
  y : ℝ

/-- The shape kind, the TypeScript union type `'line' | 'rectangle'`
(App.tsx line 261). -/
inductive ElType where
  | line : ElType
  | rectangle : ElType
deriving DecidableEq

/-- The renderer-ready derived form produced by the rough.js generator
(App.tsx lines 274-276): `generator.line(x1, y1, x2, y2, …)` or
`generator.rectangle(x1, y1, x2 - x1, y2 - y1, …)`.  The constant styling
options `{roughness: 0.5, stroke: "grey"}` are the same at every call site
and are omitted. -/
inductive Drawable where
  | line : ℝ → ℝ → ℝ → ℝ → Drawable
  | rectangle : ℝ → ℝ → ℝ → ℝ → Drawable

/-- `interface Element` (App.tsx lines 255-265). -/
structure Element where
  x1 : ℝ
  y1 : ℝ
  x2 : ℝ
  y2 : ℝ
  roughElement : Drawable
  etype : ElType
  id : ℕ
  offsetX : Option ℝ
  offsetY : Option ℝ

/-- `createElement` (App.tsx lines 272-278).  The source's `type` parameter
is a string tested with `type === "line"`; every call site passes either
`"line"` or `"rectangle"`, so the parameter is embedded as `ElType` and
the test becomes `t = ElType.line`. -/
def createElement (id : ℕ) (x1 y1 x2 y2 : ℝ) (t : ElType) : Element :=
  { x1 := x1, y1 := y1, x2 := x2, y2 := y2,
    roughElement :=
      if t = ElType.line then Drawable.line x1 y1 x2 y2
      else Drawable.rectangle x1 y1 (x2 - x1) (y2 - y1),
    etype := t,
    id := id,
    offsetX := none,
    offsetY := none }

/-- `distance` (App.tsx line 280):
`Math.sqrt(Math.pow(a.x - b.x, 2) + Math.pow(a.y - b.y, 2))`. -/
noncomputable def distance (a b : Point) : ℝ :=
  Real.sqrt ((a.x - b.x) ^ 2 + (a.y - b.y) ^ 2)

/-- `isWithinElement` (App.tsx lines 282-297).  For a rectangle the two
corners are normalized with `Math.min`/`Math.max` and the bounds are
inclusive; for a line the triangle-inequality test
`Math.abs(distance(a,b) - (distance(a,c) + distance(b,c))) < 1` is used. -/
def isWithinElement (x y : ℝ) (element : Element) : Prop :=
  match element.etype with
  | ElType.rectangle =>
      min element.x1 element.x2 ≤ x ∧ x ≤ max element.x1 element.x2 ∧
      min element.y1 element.y2 ≤ y ∧ y ≤ max element.y1 element.y2
  | ElType.line =>
      |distance ⟨element.x1, element.y1⟩ ⟨element.x2, element.y2⟩ -
        (distance ⟨element.x1, element.y1⟩ ⟨x, y⟩ +
         distance ⟨element.x2, element.y2⟩ ⟨x, y⟩)| < 1

open Classical in
/-- `getElementAtPosition` (App.tsx lines 299-301):
`elements.find(element => isWithinElement(x, y, element))`, i.e. the first
element in list order satisfying the hit test, or `none`. -/
noncomputable def getElementAtPosition (x y : ℝ) : List Element → Option Element
  | [] => Option.none
  | element :: rest =>
      if isWithinElement x y element then some element
      else getElementAtPosition x y rest

namespace V1

/-- First variant's `distance` (App.tsx line 32); identical to the second
variant's definition. -/
noncomputable def distance (a b : Point) : ℝ :=
  Real.sqrt ((a.x - b.x) ^ 2 + (a.y - b.y) ^ 2)

/-- First variant's `isWithinElement` (App.tsx lines 34-49). -/
def isWithinElement (x y : ℝ) (element : Element) : Prop :=
  match element.etype with
  | ElType.rectangle =>
      min element.x1 element.x2 ≤ x ∧ x ≤ max element.x1 element.x2 ∧
      min element.y1 element.y2 ≤ y ∧ y ≤ max element.y1 element.y2
  | ElType.line =>
      |V1.distance ⟨element.x1, element.y1⟩ ⟨element.x2, element.y2⟩ -
        (V1.distance ⟨element.x1, element.y1⟩ ⟨x, y⟩ +
         V1.distance ⟨element.x2, element.y2⟩ ⟨x, y⟩)| < 1

open Classical in
/-- First variant's `getElementAtPosition` (App.tsx lines 51-53). -/
noncomputable def getElementAtPosition (x y : ℝ) : List Element → Option Element
  | [] => Option.none
  | element :: rest =>
      if V1.isWithinElement x y element then some element
      else V1.getElementAtPosition x y rest

/-- First variant's `createElement` (App.tsx lines 24-30). -/
def createElement (id : ℕ) (x1 y1 x2 y2 : ℝ) (t : ElType) : Element :=
  { x1 := x1, y1 := y1, x2 := x2, y2 := y2,
    roughElement :=
      if t = ElType.line then Drawable.line x1 y1 x2 y2
      else Drawable.rectangle x1 y1 (x2 - x1) (y2 - y1),
    etype := t,
    id := id,
    offsetX := none,
    offsetY := none }

end V1

/-- All fields of an `Element` except the opaque `roughElement`. -/
def coreFields (e : Element) : ℕ × ℝ × ℝ × ℝ × ℝ × ElType × Option ℝ × Option ℝ :=
  (e.id, e.x1, e.y1, e.x2, e.y2, e.etype, e.offsetX, e.offsetY)

/-- The tool mode, a string in the source taking only the values
`'line'`, `'rectangle'`, `'selection'` (initial value `'line'`,
App.tsx line 306; set only at lines 337-342, 388, 392, 396). -/
inductive Tool where
  | line : Tool
  | rectangle : Tool
  | selection : Tool
deriving DecidableEq

/-- The gesture phase, a string in the source taking only the values
`'none'`, `'drawing'`, `'moving'` (initial value `'none'`, App.tsx
line 305). -/
inductive ActionState where
  | idle : ActionState
  | drawing : ActionState
  | moving : ActionState
deriving DecidableEq

/-- The string argument `handleMouseDown` passes to `createElement`
(App.tsx line 472) is the current tool, which at that point is not
`"selection"`; `createElement` and `isWithinElement` then test it with
`=== "line"` / `=== "rectangle"`, treating any non-`"line"` value as a
rectangle. -/
def toolToElType (t : Tool) : ElType :=
  if t = Tool.line then ElType.line else ElType.rectangle

/-- A Scene: the ordered list of shapes held in the `elements` /
`currentState` state variables and in each history entry. -/
abbrev Scene := List Element

/-- JavaScript array index assignment `arr[id] = v` as performed on the
copied scene by `updateElement` (App.tsx line 382).  For `id` within the
array it replaces the entry in place; for `id` equal to the length it
appends; for `id` greater than the length JavaScript creates a sparse
array, which this embedding does not represent, marked `none`.  The
assignment never throws. -/
def jsArraySet (scene : Scene) (id : ℕ) (el : Element) : Option Scene :=
  if id < scene.length then some (scene.set id el)
  else if id = scene.length then some (scene ++ [el])
  else none

/-- `saveState` (App.tsx lines 543-548):
`history.slice(0, currentIndex + 1)` (for `currentIndex ≥ -1` this is
`take (currentIndex + 1)`; the cursor never goes below `-1`), push the new
snapshot, advance the cursor. -/
def saveState (history : List Scene) (currentIndex : ℤ) (newState : Scene) :
    List Scene × ℤ :=
  (history.take (currentIndex + 1).toNat ++ [newState], currentIndex + 1)

/-- The interaction-relevant state of the second variant's `App`
component (App.tsx lines 304-315); the presentation-only `darkMode` flag
is omitted. -/
structure AppState where
  elements : List Element
  action : ActionState
  tool : Tool
  selectedElement : Option Element
  history : List Scene
  currentState : Scene
  currentIndex : ℤ
  textInputMode : Bool

/-- The initial state (App.tsx lines 304-315): empty scene, idle, line
tool, no selection, empty history with cursor `-1`, text mode off. -/
def initialState : AppState :=
  { elements := [], action := ActionState.idle, tool := Tool.line,
    selectedElement := none, history := [], currentState := [],
    currentIndex := -1, textInputMode := false }

/-- `updateElement` (App.tsx lines 379-385): rebuild the shape via
`createElement`, copy `currentState`, assign at index `id`, store the
copy as the new `currentState` and commit it via `saveState`.  `none`
marks the sparse-array case `jsArraySet` cannot represent. -/
def updateElement (st : AppState) (id : ℕ) (x1 y1 clientX clientY : ℝ)
    (t : ElType) : Option AppState :=
  let updatedElement := createElement id x1 y1 clientX clientY t
  match jsArraySet st.currentState id updatedElement with
  | Option.none => Option.none
  | some elementsCopy =>
      some { st with
        currentState := elementsCopy,
        history := (saveState st.history st.currentIndex elementsCopy).1,
        currentIndex := (saveState st.history st.currentIndex elementsCopy).2 }

/-- The history- and display-updating tail of `updateElement`
(App.tsx lines 383-384): `setCurrentState(s); saveState(s)` — the spec's
`commit` operation. -/
def commitApp (st : AppState) (s : Scene) : AppState :=
  { st with
    currentState := s,
    history := (saveState st.history st.currentIndex s).1,
    currentIndex := (saveState st.history st.currentIndex s).2 }

/-- `handleMouseDown` (App.tsx lines 437-476).  In text-input mode the
handler only builds a DOM input (external to the core) and disarms the
mode; with the selection tool it grabs the shape under the pointer,
storing the grab offsets, and enters `moving`; otherwise it appends a
fresh zero-size shape with `id = elements.length` and enters `drawing`. -/
noncomputable def handleMouseDown (st : AppState) (clientX clientY : ℝ) :
    AppState :=
  if st.textInputMode then { st with textInputMode := false }
  else if st.tool = Tool.selection then
    match getElementAtPosition clientX clientY st.currentState with
    | some element =>
        { st with
          selectedElement := some { element with
            offsetX := some (clientX - element.x1),
            offsetY := some (clientY - element.y1) },
          action := ActionState.moving }
    | Option.none => st
  else
    let id := st.elements.length
    let element := createElement id clientX clientY clientX clientY
      (toolToElType st.tool)
    { st with elements := st.elements ++ [element], action := ActionState.drawing }

/-- `handleMouseMove` (App.tsx lines 478-517).  With the selection tool,
an active `moving` drag translates the selected shape so its anchor sits
at `pointer − offset`, preserving the stored width and height, and
commits; with a drawing tool, an active `drawing` drag rebuilds the last
appended shape's far corner at the pointer and commits.  Cursor-style
updates are external side effects and are not modelled.  `none` marks the
two situations the embedding cannot represent: reading
`elements[elements.length - 1]` from an empty `elements` array (a
TypeError in the source) and a sparse-array write in `updateElement`. -/
noncomputable def handleMouseMove (st : AppState) (clientX clientY : ℝ) :
    Option AppState :=
  if st.tool = Tool.selection then
    if st.action = ActionState.moving then
      match st.selectedElement with
      | some se =>
          let height := se.y2 - se.y1
          let width := se.x2 - se.x1
          let newX1 := clientX - se.offsetX.getD 0
          let newY1 := clientY - se.offsetY.getD 0
          updateElement st se.id newX1 newY1 (newX1 + width) (newY1 + height)
            se.etype
      | Option.none => some st
    else some st
  else
    if st.action = ActionState.drawing then
      match st.elements.get? (st.elements.length - 1) with
      | Option.none => Option.none
      | some e => updateElement st (st.elements.length - 1) e.x1 e.y1
          clientX clientY (toolToElType st.tool)
    else some st

/-- `handleMouseUp` (App.tsx lines 519-522):
`setAction('none'); setSelectedElement(null)`. -/
def handleMouseUp (st : AppState) : AppState :=
  { st with action := ActionState.idle, selectedElement := none }

/-- `handleUndo` (App.tsx lines 318-323): when `currentIndex > 0`, step
the cursor back and display `history[currentIndex - 1]`; otherwise do
nothing.  The indexed access is in range at every reachable state; the
embedding's `getD` default is never read there. -/
def handleUndo (st : AppState) : AppState :=
  if 0 < st.currentIndex then
    { st with
      currentIndex := st.currentIndex - 1,
      currentState := st.history.getD (st.currentIndex - 1).toNat [] }
  else st

/-- `handleRedo` (App.tsx lines 325-330): when
`currentIndex < history.length - 1`, step the cursor forward and display
`history[currentIndex + 1]`; otherwise do nothing. -/
def handleRedo (st : AppState) : AppState :=
  if st.currentIndex < (st.history.length : ℤ) - 1 then
    { st with
      currentIndex := st.currentIndex + 1,
      currentState := st.history.getD (st.currentIndex + 1).toNat [] }
  else st

/-- `handleSelection` (App.tsx lines 395-399), the selection button:
switch to the selection tool, reset the action, clear the selection. -/
def handleSelection (st : AppState) : AppState :=
  { st with
    tool := Tool.selection,
    action := ActionState.idle,
    selectedElement := none }

/-- Every shape in the list carries an `id` equal to its position. -/
def idsAligned (l : List Element) : Prop :=
  ∀ (i : ℕ) (e : Element), l[i]? = some e → e.id = i

/-- The states the second variant's interaction machine can reach from
its initial state through its event handlers: pointer events, undo/redo
(Ctrl+Z / Ctrl+R, App.tsx lines 332-336), the tool keys and buttons
(lines 337-342, 387-399) and the text-mode toggle (lines 343-345, 555). -/
inductive Reachable : AppState → Prop where
  | init : Reachable initialState
  | mouseDown {st} (x y : ℝ) : Reachable st → Reachable (handleMouseDown st x y)
  | mouseMove {st st'} (x y : ℝ) : Reachable st →
      handleMouseMove st x y = some st' → Reachable st'
  | mouseUp {st} : Reachable st → Reachable (handleMouseUp st)
  | undo {st} : Reachable st → Reachable (handleUndo st)
  | redo {st} : Reachable st → Reachable (handleRedo st)
  | toolLine {st} : Reachable st → Reachable { st with tool := Tool.line }
  | toolRectangle {st} : Reachable st →
      Reachable { st with tool := Tool.rectangle }
  | toolSelectionKey {st} : Reachable st →
      Reachable { st with tool := Tool.selection }
  | toolSelectionButton {st} : Reachable st → Reachable (handleSelection st)
  | toggleText {st} : Reachable st →
      Reachable { st with textInputMode := !st.textInputMode }


/-- The coordinate quadruples of the shapes of a scene, used to state
concrete end-to-end facts. -/
def sceneCoords (s : Scene) : List (ℝ × ℝ × ℝ × ℝ) :=
  s.map fun e => (e.x1, e.y1, e.x2, e.y2)

/-- The line from (0,0) to (10,0) used by the hit-testing claims. -/
def lineTen : Element := createElement 0 0 0 10 0 ElType.line

/-- Rectangle with corners (0,0)-(10,10), created first (id 0). -/
def rectA : Element := createElement 0 0 0 10 10 ElType.rectangle

/-- Overlapping rectangle with corners (2,2)-(12,12), created second
(id 1). -/
def rectB : Element := createElement 1 2 2 12 12 ElType.rectangle

/-- A small element for concrete history states. -/
def elemSmall : Element := createElement 0 0 0 1 1 ElType.line

/-- A concrete state with a two-entry history and the cursor at its
tail, used to instantiate the undo/redo claim. -/
def stHistory : AppState :=
  { initialState with
    history := [[], [elemSmall]], currentIndex := 1,
    currentState := [elemSmall] }

/-- A state with text-input mode armed and the line tool active. -/
def stTextArmed : AppState := { initialState with textInputMode := true }

/-- The line from (10,10) to (50,50) of the end-to-end move scenario. -/
def elMove : Element := createElement 0 10 10 50 50 ElType.line

/-- The state just before the move scenario: the (10,10)-(50,50) line is
on the canvas and the selection tool is active. -/
def stMoveStart : AppState :=
  { initialState with
    tool := Tool.selection, elements := [elMove],
    currentState := [elMove], history := [[elMove]], currentIndex := 0 }

/-- The (10,10)-(50,50) line grabbed at (30,30): offsets (20,20). -/
def elMoveGrabbed : Element :=
  { elMove with offsetX := some 20, offsetY := some 20 }

/-- A state in mid-drag (action `moving`, a shape selected) in which the
tool has been switched back to `line` by its keyboard shortcut. -/
def stMovingLineTool : AppState :=
  { initialState with
    tool := Tool.line, action := ActionState.moving,
    selectedElement := some elMoveGrabbed, currentState := [elMove] }

/-- A state in mid-drag with the selection tool still active, used to
instantiate the move-translation claim. -/
def stMovingSelection : AppState :=
  { initialState with
    tool := Tool.selection, action := ActionState.moving,
    selectedElement := some elMoveGrabbed, currentState := [elMove] }

/-- The scene coordinates reached after an optional state, used to state
the end-to-end move scenario without binders. -/
noncomputable def finalCoords (o : Option AppState) :
    Option (List (ℝ × ℝ × ℝ × ℝ)) :=
  o.map fun s => sceneCoords (handleMouseUp s).currentState

/-- The (10,10)-(50,50) line translated by (+50,+50): the result the
code actually produces in the move scenario. -/
def elMoved : Element := createElement 0 60 60 100 100 ElType.line

/-- The state after grabbing the line at (30,30) and dragging to
(80,80): the translated line is displayed and committed. -/
def stAfterMove : AppState :=
  { stMoveStart with
    selectedElement := some elMoveGrabbed, action := ActionState.moving,
    currentState := [elMoved], history := [[elMove], [elMoved]],
    currentIndex := 1 }

/-! ### Helper lemmas -/

lemma real_sqrt_eval {a b : ℝ} (hb : 0 ≤ b) (h : a = b ^ 2) :
    Real.sqrt a = b := by
  rw [h, Real.sqrt_sq hb]

lemma line_hit_five_zero : isWithinElement 5 0 lineTen := by
  have h100 : Real.sqrt 100 = 10 := real_sqrt_eval (by norm_num) (by norm_num)
  have h25 : Real.sqrt 25 = 5 := real_sqrt_eval (by norm_num) (by norm_num)
  simp only [isWithinElement, lineTen, createElement, distance]
  norm_num [h100, h25]

lemma line_hit_five_one : isWithinElement 5 1 lineTen := by
  have h100 : Real.sqrt 100 = 10 := real_sqrt_eval (by norm_num) (by norm_num)
  have hs : Real.sqrt 26 ^ 2 = 26 := Real.sq_sqrt (by norm_num)
  have hnn : (0 : ℝ) ≤ Real.sqrt 26 := Real.sqrt_nonneg 26
  simp only [isWithinElement, lineTen, createElement, distance]
  norm_num [h100]
  rw [abs_lt]
  constructor <;> nlinarith

lemma line_miss_fifteen_zero : ¬ isWithinElement 15 0 lineTen := by
  have h100 : Real.sqrt 100 = 10 := real_sqrt_eval (by norm_num) (by norm_num)
  have h225 : Real.sqrt 225 = 15 := real_sqrt_eval (by norm_num) (by norm_num)
  have h25 : Real.sqrt 25 = 5 := real_sqrt_eval (by norm_num) (by norm_num)
  simp only [isWithinElement, lineTen, createElement, distance]
  norm_num [h100, h225, h25]

lemma jsArraySet_of_lt {scene : Scene} {id : ℕ} {el : Element}
    (h : id < scene.length) : jsArraySet scene id el = some (scene.set id el) := by
  simp [jsArraySet, h]

lemma jsArraySet_of_eq {scene : Scene} {el : Element} :
    jsArraySet scene scene.length el = some (scene ++ [el]) := by
  simp [jsArraySet]

lemma jsArraySet_isSome {scene : Scene} {id : ℕ} (el : Element)
    (h : id ≤ scene.length) : ∃ s', jsArraySet scene id el = some s' := by
  rcases lt_or_eq_of_le h with h' | h'
  · exact ⟨scene.set id el, jsArraySet_of_lt h'⟩
  · exact ⟨scene ++ [el], h' ▸ jsArraySet_of_eq⟩

lemma idsAligned_nil : idsAligned [] := by
  intro i e h
  simp at h

lemma idsAligned_append {l : List Element} {e : Element}
    (hl : idsAligned l) (he : e.id = l.length) : idsAligned (l ++ [e]) := by
  intro i e' h
  rcases lt_or_ge i l.length with hi | hi
  · rw [List.getElem?_append_left hi] at h
    exact hl i e' h
  · rw [List.getElem?_append_right hi] at h
    rcases Nat.eq_zero_or_pos (i - l.length) with h0 | h0
    · rw [h0] at h
      simp only [List.getElem?_cons_zero, Option.some.injEq] at h
      rw [← h, he]
      omega
    · rw [List.getElem?_eq_none (by simp only [List.length_singleton]; omega)] at h
      exact absurd h (by simp)

lemma idsAligned_set {l : List Element} {e : Element} {i : ℕ}
    (hl : idsAligned l) (he : e.id = i) : idsAligned (l.set i e) := by
  intro j e' h
  rcases eq_or_ne i j with rfl | hij
  · rcases Nat.lt_or_ge i l.length with hi | hi
    · rw [List.getElem?_set_eq_of_lt e hi] at h
      cases h
      exact he
    · rw [List.set_eq_of_length_le hi] at h
      exact hl i e' h
  · rw [List.getElem?_set_ne hij] at h
    exact hl j e' h

lemma idsAligned_jsArraySet {l l' : List Element} {e : Element} {i : ℕ}
    (hl : idsAligned l) (h : jsArraySet l i e = some l') (he : e.id = i) :
    idsAligned l' := by
  unfold jsArraySet at h
  split at h
  · cases h
    exact idsAligned_set hl he
  · split at h
    · cases h
      apply idsAligned_append hl
      omega
    · exact absurd h (by simp)

lemma idsAligned_getD {hist : List Scene} {n : ℕ}
    (h : ∀ s ∈ hist, idsAligned s) : idsAligned (hist.getD n []) := by
  rw [List.getD_eq_getElem?_getD]
  rcases hn : hist[n]? with _ | s
  · simpa using idsAligned_nil
  · have : s ∈ hist := List.getElem?_mem hn
    simpa using h s this

lemma mem_saveState_fst {hist : List Scene} {i : ℤ} {ns s : Scene}
    (h : s ∈ (saveState hist i ns).1) : s ∈ hist ∨ s = ns := by
  unfold saveState at h
  rcases List.mem_append.mp h with h' | h'
  · exact Or.inl (List.take_subset _ _ h')
  · simp at h'
    exact Or.inr h'

lemma getElementAtPosition_eq_none_iff (x y : ℝ) (es : List Element) :
    getElementAtPosition x y es = Option.none ↔
      ∀ e ∈ es, ¬ isWithinElement x y e := by
  induction es with
  | nil => simp [getElementAtPosition]
  | cons a rest ih =>
      by_cases h : isWithinElement x y a
      · simp [getElementAtPosition, h]
      · simp [getElementAtPosition, h, ih]

lemma getElementAtPosition_eq_some_iff (x y : ℝ) (es : List Element)
    (e : Element) :
    getElementAtPosition x y es = some e ↔
      ∃ l1 l2, es = l1 ++ e :: l2 ∧ isWithinElement x y e ∧
        ∀ e' ∈ l1, ¬ isWithinElement x y e' := by
  induction es with
  | nil =>
      constructor
      · intro h
        simp [getElementAtPosition] at h
      · rintro ⟨l1, l2, heq, -, -⟩
        exact absurd heq (by simp)
  | cons a rest ih =>
      by_cases h : isWithinElement x y a
      · constructor
        · intro hsome
          simp only [getElementAtPosition, if_pos h, Option.some.injEq] at hsome
          exact ⟨[], rest, by simp [hsome], hsome ▸ h, by simp⟩
        · rintro ⟨l1, l2, heq, he, hmiss⟩
          cases l1 with
          | nil =>
              simp only [List.nil_append, List.cons.injEq] at heq
              obtain ⟨rfl, rfl⟩ := heq
              simp [getElementAtPosition, h]
          | cons b l1' =>
              simp only [List.cons_append, List.cons.injEq] at heq
              exact absurd (heq.1 ▸ h) (hmiss b (by simp))
      · constructor
        · intro hsome
          simp only [getElementAtPosition, if_neg h] at hsome
          obtain ⟨l1, l2, heq, he, hmiss⟩ := ih.mp hsome
          refine ⟨a :: l1, l2, by simp [heq], he, ?_⟩
          intro e' he'
          rcases List.mem_cons.mp he' with rfl | he'
          · exact h
          · exact hmiss e' he'
        · rintro ⟨l1, l2, heq, he, hmiss⟩
          cases l1 with
          | nil =>
              simp only [List.nil_append, List.cons.injEq] at heq
              exact absurd (heq.1 ▸ he) h
          | cons b l1' =>
              simp only [List.cons_append, List.cons.injEq] at heq
              simp only [getElementAtPosition, if_neg h]
              refine ih.mpr ⟨l1', l2, heq.2, he, ?_⟩
              intro e' he'
              exact hmiss e' (by simp [he'])

lemma isWithin_rectA : isWithinElement 5 5 rectA := by
  simp [isWithinElement, rectA, createElement]
  norm_num

lemma isWithin_rectB : isWithinElement 5 5 rectB := by
  simp [isWithinElement, rectB, createElement]
  norm_num

/-- The scene-id invariant: every live shape's id equals its positional
index, in the `elements` array, in the displayed `currentState`, and in
every history snapshot. -/
def sceneInvariant (st : AppState) : Prop :=
  idsAligned st.elements ∧ idsAligned st.currentState ∧
    ∀ s ∈ st.history, idsAligned s

lemma updateElement_some {st : AppState} {id : ℕ} {x1 y1 cx cy : ℝ}
    {t : ElType} {st' : AppState}
    (h : updateElement st id x1 y1 cx cy t = some st') :
    ∃ copy, jsArraySet st.currentState id (createElement id x1 y1 cx cy t) = some copy ∧
      st' = { st with
        currentState := copy,
        history := (saveState st.history st.currentIndex copy).1,
        currentIndex := (saveState st.history st.currentIndex copy).2 } := by
  simp only [updateElement] at h
  split at h
  · exact absurd h (by simp)
  · rename_i copy heq
    cases h
    exact ⟨copy, heq, rfl⟩

lemma invariant_commit {st : AppState} {copy : Scene}
    (hc : idsAligned copy) (hh : ∀ s ∈ st.history, idsAligned s) :
    ∀ s ∈ (saveState st.history st.currentIndex copy).1, idsAligned s := by
  intro s hs
  rcases mem_saveState_fst hs with hs' | rfl
  · exact hh s hs'
  · exact hc

lemma reachable_sceneInvariant {st : AppState} (h : Reachable st) :
    sceneInvariant st := by
  induction h with
  | init =>
      refine ⟨idsAligned_nil, idsAligned_nil, ?_⟩
      intro s hs
      simp [initialState] at hs
  | mouseDown x y hr ih =>
      obtain ⟨he, hc, hh⟩ := ih
      unfold handleMouseDown
      split
      · exact ⟨he, hc, hh⟩
      · split
        · rename_i st _ _
          cases getElementAtPosition x y st.currentState with
          | none => exact ⟨he, hc, hh⟩
          | some element => exact ⟨he, hc, hh⟩
        · exact ⟨idsAligned_append he rfl, hc, hh⟩
  | mouseMove x y hr heq ih =>
      obtain ⟨he, hc, hh⟩ := ih
      unfold handleMouseMove at heq
      split at heq
      · split at heq
        · split at heq
          · rename_i se hse
            obtain ⟨copy, hj, rfl⟩ := updateElement_some heq
            exact ⟨he, idsAligned_jsArraySet hc hj rfl, invariant_commit
              (idsAligned_jsArraySet hc hj rfl) hh⟩
          · cases heq
            exact ⟨he, hc, hh⟩
        · cases heq
          exact ⟨he, hc, hh⟩
      · split at heq
        · split at heq
          · exact absurd heq (by simp)
          · obtain ⟨copy, hj, rfl⟩ := updateElement_some heq
            exact ⟨he, idsAligned_jsArraySet hc hj rfl, invariant_commit
              (idsAligned_jsArraySet hc hj rfl) hh⟩
        · cases heq
          exact ⟨he, hc, hh⟩
  | mouseUp hr ih => exact ⟨ih.1, ih.2.1, ih.2.2⟩
  | undo hr ih =>
      obtain ⟨he, hc, hh⟩ := ih
      unfold handleUndo
      split
      · exact ⟨he, idsAligned_getD hh, hh⟩
      · exact ⟨he, hc, hh⟩
  | redo hr ih =>
      obtain ⟨he, hc, hh⟩ := ih
      unfold handleRedo
      split
      · exact ⟨he, idsAligned_getD hh, hh⟩
      · exact ⟨he, hc, hh⟩
  | toolLine hr ih => exact ⟨ih.1, ih.2.1, ih.2.2⟩
  | toolRectangle hr ih => exact ⟨ih.1, ih.2.1, ih.2.2⟩
  | toolSelectionKey hr ih => exact ⟨ih.1, ih.2.1, ih.2.2⟩
  | toolSelectionButton hr ih => exact ⟨ih.1, ih.2.1, ih.2.2⟩
  | toggleText hr ih => exact ⟨ih.1, ih.2.1, ih.2.2⟩

lemma sqrt3200_eq : Real.sqrt 3200 = Real.sqrt 800 + Real.sqrt 800 := by
  rw [show (3200 : ℝ) = 4 * 800 by norm_num,
    Real.sqrt_mul (by norm_num : (0 : ℝ) ≤ 4) 800,
    show Real.sqrt 4 = 2 from real_sqrt_eval (by norm_num) (by norm_num)]
  ring

lemma line_hit_thirty : isWithinElement 30 30 elMove := by
  simp only [isWithinElement, elMove, createElement, distance]
  norm_num [sqrt3200_eq]

lemma grab_step : handleMouseDown stMoveStart 30 30 =
    { stMoveStart with
      selectedElement := some elMoveGrabbed, action := ActionState.moving } := by
  have hfind : getElementAtPosition 30 30 stMoveStart.currentState
      = some elMove := by
    show getElementAtPosition 30 30 [elMove] = some elMove
    unfold getElementAtPosition
    rw [if_pos line_hit_thirty]
  unfold handleMouseDown
  rw [if_neg (by simp [stMoveStart, initialState]),
    if_pos (show stMoveStart.tool = Tool.selection from rfl), hfind]
  simp [elMoveGrabbed, elMove, createElement, stMoveStart, initialState]
  norm_num

lemma move_step :
    handleMouseMove
      { stMoveStart with
        selectedElement := some elMoveGrabbed, action := ActionState.moving }
      80 80 = some stAfterMove := by
  simp [handleMouseMove, updateElement, jsArraySet, saveState, stMoveStart,
    initialState, stAfterMove, elMoveGrabbed, elMove, elMoved, createElement]
  norm_num

/-! ### Claim theorems -/

/-- C9: In every state, PointerUp (`handleMouseUp`) sets the action to
idle and clears the selection, leaves the scene (`elements` and
`currentState`), the history (entries and cursor), the tool and the
text mode unchanged, and is idempotent: a second PointerUp with no
intervening PointerDown leaves the entire state unchanged. -/
theorem pointerup_resets_action_clears_selection_idempotent :
    ∀ st : AppState,
      handleMouseUp st =
        { st with action := ActionState.idle, selectedElement := none } ∧
      (handleMouseUp st).action = ActionState.idle ∧
      (handleMouseUp st).selectedElement = none ∧
      (handleMouseUp st).elements = st.elements ∧
      (handleMouseUp st).currentState = st.currentState ∧
      (handleMouseUp st).history = st.history ∧
      (handleMouseUp st).currentIndex = st.currentIndex ∧
      (handleMouseUp st).tool = st.tool ∧
      (handleMouseUp st).textInputMode = st.textInputMode ∧
      handleMouseUp (handleMouseUp st) = handleMouseUp st := by
  intro st
  exact ⟨rfl, rfl, rfl, rfl, rfl, rfl, rfl, rfl, rfl, rfl⟩

/-- C4: for every rectangle shape, with corners not necessarily
normalized, the hit test normalizes the corners with min/max and uses
inclusive bounds; on the rectangle with corners (0,0)-(10,10) it accepts
(0,0), (10,10), (5,5) and rejects (11,5) and (-1,5). -/
theorem rectangle_hit_test_normalized_inclusive :
    (∀ x1 y1 x2 y2 x y : ℝ,
       isWithinElement x y (createElement 0 x1 y1 x2 y2 ElType.rectangle) ↔
         (min x1 x2 ≤ x ∧ x ≤ max x1 x2 ∧ min y1 y2 ≤ y ∧ y ≤ max y1 y2)) ∧
    isWithinElement 0 0 (createElement 0 0 0 10 10 ElType.rectangle) ∧
    isWithinElement 10 10 (createElement 0 0 0 10 10 ElType.rectangle) ∧
    isWithinElement 5 5 (createElement 0 0 0 10 10 ElType.rectangle) ∧
    ¬ isWithinElement 11 5 (createElement 0 0 0 10 10 ElType.rectangle) ∧
    ¬ isWithinElement (-1) 5 (createElement 0 0 0 10 10 ElType.rectangle) := by
  refine ⟨fun x1 y1 x2 y2 x y => Iff.rfl, ?_, ?_, ?_, ?_, ?_⟩ <;>
    simp [isWithinElement, createElement] <;> norm_num

/-- C10: the pure core functions of the two near-duplicate variants in
the source file agree extensionally: `distance`, `isWithinElement` and
`getElementAtPosition` coincide on all inputs, and `createElement`
produces the same shape, compared on all fields except the opaque
`roughElement`. -/
theorem variant_pure_cores_agree :
    (∀ a b : Point, V1.distance a b = distance a b) ∧
    (∀ (x y : ℝ) (e : Element),
       V1.isWithinElement x y e ↔ isWithinElement x y e) ∧
    (∀ (x y : ℝ) (es : List Element),
       V1.getElementAtPosition x y es = getElementAtPosition x y es) ∧
    (∀ (id : ℕ) (x1 y1 x2 y2 : ℝ) (t : ElType),
       coreFields (V1.createElement id x1 y1 x2 y2 t) =
         coreFields (createElement id x1 y1 x2 y2 t)) := by
  refine ⟨fun a b => rfl, fun x y e => Iff.rfl, fun x y es => ?_,
    fun id x1 y1 x2 y2 t => rfl⟩
  induction es with
  | nil => rfl
  | cons e rest ih =>
      simp only [V1.getElementAtPosition, getElementAtPosition]
      rw [ih]
      rfl

/-- C1: `saveState` truncates the history to the entries at indices
`[0, currentIndex]`, appends the new snapshot and advances the cursor by
one; starting from the empty history with cursor `-1`, after
`commit(s1)`, `commit(s2)`, `undo()` (which displays `s1`), a further
`commit(s3)` leaves the history `[s1, s3]` — `s2` is discarded — with
the cursor at 1, so a subsequent `redo()` is a no-op. -/
theorem commit_truncates_appends_advances :
    (∀ (h : List Scene) (i : ℤ) (s : Scene),
       (saveState h i s).1 = h.take (i + 1).toNat ++ [s] ∧
       (saveState h i s).2 = i + 1) ∧
    (∀ s1 s2 s3 : Scene,
       (handleUndo (commitApp (commitApp initialState s1) s2)).currentState = s1 ∧
       (commitApp (handleUndo (commitApp (commitApp initialState s1) s2)) s3).history
         = [s1, s3] ∧
       (commitApp (handleUndo (commitApp (commitApp initialState s1) s2)) s3).currentIndex
         = 1 ∧
       (commitApp (handleUndo (commitApp (commitApp initialState s1) s2)) s3).currentState
         = s3 ∧
       handleRedo (commitApp (handleUndo (commitApp (commitApp initialState s1) s2)) s3)
         = commitApp (handleUndo (commitApp (commitApp initialState s1) s2)) s3) := by
  refine ⟨fun h i s => ⟨rfl, rfl⟩, fun s1 s2 s3 => ⟨?_, ?_, ?_, ?_, ?_⟩⟩ <;>
    norm_num [commitApp, saveState, handleUndo, handleRedo, initialState]

/-- C2: undo steps the cursor back and displays the snapshot at the new
index exactly when `currentIndex > 0`, redo steps it forward and displays
the snapshot at the new index exactly when
`currentIndex < length(history) - 1`; at the boundaries both handlers
leave the whole state — history, cursor and displayed scene — unchanged.
The in-range hypotheses `currentIndex < length(history)` /
`-1 ≤ currentIndex` are the documented history invariant, which holds in
every reachable state. -/
theorem undo_redo_guards_and_boundary_noops :
    ∀ st : AppState,
      (0 < st.currentIndex → st.currentIndex < (st.history.length : ℤ) →
        (handleUndo st).history = st.history ∧
        (handleUndo st).currentIndex = st.currentIndex - 1 ∧
        st.history[(st.currentIndex - 1).toNat]? = some (handleUndo st).currentState) ∧
      (st.currentIndex ≤ 0 → handleUndo st = st) ∧
      (-1 ≤ st.currentIndex → st.currentIndex < (st.history.length : ℤ) - 1 →
        (handleRedo st).history = st.history ∧
        (handleRedo st).currentIndex = st.currentIndex + 1 ∧
        st.history[(st.currentIndex + 1).toNat]? = some (handleRedo st).currentState) ∧
      ((st.history.length : ℤ) - 1 ≤ st.currentIndex → handleRedo st = st) := by
  intro st
  refine ⟨fun h1 h2 => ?_, fun h1 => ?_, fun h1 h2 => ?_, fun h1 => ?_⟩
  · have hlt : (st.currentIndex - 1).toNat < st.history.length := by omega
    unfold handleUndo
    rw [if_pos h1]
    refine ⟨rfl, rfl, ?_⟩
    rw [List.getD_eq_getElem?_getD, List.getElem?_eq_getElem hlt]
    rfl
  · unfold handleUndo
    rw [if_neg (by omega)]
  · have hlt : (st.currentIndex + 1).toNat < st.history.length := by omega
    unfold handleRedo
    rw [if_pos (by omega)]
    refine ⟨rfl, rfl, ?_⟩
    rw [List.getD_eq_getElem?_getD, List.getElem?_eq_getElem hlt]
    rfl
  · unfold handleRedo
    rw [if_neg (by omega)]

/-- Witness for the undo/redo claim: at the concrete state `stHistory`
(history `[[], [elemSmall]]`, cursor 1) the in-range undo branch applies:
the cursor moves to 0 and the displayed scene becomes the snapshot at
index 0. -/
theorem undo_redo_guards_witness :
    (handleUndo stHistory).history = stHistory.history ∧
    (handleUndo stHistory).currentIndex = stHistory.currentIndex - 1 ∧
    stHistory.history[(stHistory.currentIndex - 1).toNat]?
      = some (handleUndo stHistory).currentState :=
  (undo_redo_guards_and_boundary_noops stHistory).1
    (by norm_num [stHistory, initialState])
    (by norm_num [stHistory, initialState])

/-- C5: `getElementAtPosition` returns `none` exactly when no shape of
the scene contains the point, and returns `some e` exactly when `e` is
the first shape in insertion order containing the point (every earlier
shape misses); in particular, with overlapping rectangles A (id 0, first)
and B (id 1, second) both containing (5,5), it returns A. -/
theorem findAt_returns_first_match_in_insertion_order :
    (∀ (x y : ℝ) (es : List Element),
       getElementAtPosition x y es = Option.none ↔
         ∀ e ∈ es, ¬ isWithinElement x y e) ∧
    (∀ (x y : ℝ) (es : List Element) (e : Element),
       getElementAtPosition x y es = some e ↔
         ∃ l1 l2, es = l1 ++ e :: l2 ∧ isWithinElement x y e ∧
           ∀ e' ∈ l1, ¬ isWithinElement x y e') ∧
    (isWithinElement 5 5 rectA ∧ isWithinElement 5 5 rectB ∧
       getElementAtPosition 5 5 [rectA, rectB] = some rectA) := by
  refine ⟨getElementAtPosition_eq_none_iff, getElementAtPosition_eq_some_iff,
    isWithin_rectA, isWithin_rectB, ?_⟩
  simp [getElementAtPosition, isWithin_rectA]

/-- Witness for the first-match claim: instantiating the `none`
characterization at the empty scene shows `getElementAtPosition` finds
nothing there. -/
theorem findAt_returns_first_match_witness :
    getElementAtPosition 5 5 [] = Option.none :=
  (findAt_returns_first_match_in_insertion_order.1 5 5 []).mpr (by simp)

/-- C7 (amended): for every id in `[0, length(scene))` the index
assignment performed by `updateElement` substitutes only the entry at
position `id`, preserving the length and every other entry in value and
order; but for `id = length(scene)` it appends the shape instead of
failing — the JavaScript assignment never raises an `IndexError`. -/
theorem replace_in_range_substitutes_at_length_appends :
    (∀ (scene : Scene) (id : ℕ) (el : Element), id < scene.length →
       jsArraySet scene id el = some (scene.set id el) ∧
       (scene.set id el).length = scene.length ∧
       (scene.set id el)[id]? = some el ∧
       ∀ j : ℕ, j ≠ id → (scene.set id el)[j]? = scene[j]?) ∧
    (∀ (scene : Scene) (el : Element),
       jsArraySet scene scene.length el = some (scene ++ [el])) := by
  refine ⟨fun scene id el h => ⟨jsArraySet_of_lt h, List.length_set scene id el,
    List.getElem?_set_eq_of_lt el h, fun j hj => List.getElem?_set_ne
      (Ne.symm hj)⟩, fun scene el => jsArraySet_of_eq⟩

/-- Witness for the replace claim at the concrete scene `[rectA, rectB]`
with id 0: the entry at 0 is substituted, the length and the entry at 1
are untouched. -/
theorem replace_in_range_witness :
    jsArraySet [rectA, rectB] 0 elemSmall
      = some ([rectA, rectB].set 0 elemSmall) ∧
    ([rectA, rectB].set 0 elemSmall).length = [rectA, rectB].length ∧
    ([rectA, rectB].set 0 elemSmall)[0]? = some elemSmall ∧
    ([rectA, rectB].set 0 elemSmall)[1]? = [rectA, rectB][1]? := by
  obtain ⟨h1, h2, h3, h4⟩ :=
    replace_in_range_substitutes_at_length_appends.1 [rectA, rectB] 0 elemSmall
      (by norm_num)
  exact ⟨h1, h2, h3, h4 1 (by norm_num)⟩

/-- Counterexample to C7 as stated: id 0 lies outside
`[0, length([]))`, yet the assignment does not fail with an `IndexError`
— at the scene level it appends, and at the application level
`updateElement` succeeds, committing the one-shape scene. -/
theorem replace_out_of_range_appends_no_error :
    jsArraySet ([] : Scene) 0 elemSmall = some [elemSmall] ∧
    updateElement initialState 0 0 0 1 1 ElType.line ≠ Option.none := by
  constructor
  · simp [jsArraySet]
  · simp [updateElement, jsArraySet, initialState]

/-- C3 (amended): for every line shape the hit test holds iff
`|dist(e1,e2) - (dist(e1,p) + dist(e2,p))| < 1`; on the line from (0,0)
to (10,0) the test accepts (5,0), accepts (5,1) — the point is within
the 1-unit tolerance, since `|10 - 2*sqrt 26| < 1` — and rejects
(15,0). -/
theorem line_hit_test_formula_and_tolerance :
    (∀ x1 y1 x2 y2 x y : ℝ,
       isWithinElement x y (createElement 0 x1 y1 x2 y2 ElType.line) ↔
         |distance ⟨x1, y1⟩ ⟨x2, y2⟩ -
           (distance ⟨x1, y1⟩ ⟨x, y⟩ + distance ⟨x2, y2⟩ ⟨x, y⟩)| < 1) ∧
    isWithinElement 5 0 lineTen ∧
    isWithinElement 5 1 lineTen ∧
    ¬ isWithinElement 15 0 lineTen :=
  ⟨fun _ _ _ _ _ _ => Iff.rfl, line_hit_five_zero, line_hit_five_one,
    line_miss_fifteen_zero⟩

/-- Counterexample to C3 as stated: the claim calls `containsPoint`
false at (5,1) on the line from (0,0) to (10,0), but the code accepts it:
`dist((0,0),(5,1)) + dist((10,0),(5,1)) = 2*sqrt 26 ≈ 10.198`, within
the 1-unit tolerance of the length 10. -/
theorem line_hit_test_accepts_five_one :
    isWithinElement 5 1 (createElement 0 0 0 10 0 ElType.line) := by
  have h100 : Real.sqrt 100 = 10 := real_sqrt_eval (by norm_num) (by norm_num)
  have hs : Real.sqrt 26 ^ 2 = 26 := Real.sq_sqrt (by norm_num)
  have hnn : (0 : ℝ) ≤ Real.sqrt 26 := Real.sqrt_nonneg 26
  simp only [isWithinElement, createElement, distance]
  norm_num [h100]
  rw [abs_lt]
  constructor <;> nlinarith

/-- C6 (amended): a PointerDown with a drawing tool (Line or Rectangle)
while text-input mode is not armed appends to `elements` a fresh
zero-size shape at the pointer with `id = length(elements)` and enters
`drawing`; and in every reachable state, every live shape's id equals
its positional index, both in `elements` and in the displayed scene. -/
theorem pointerdown_draw_appends_id_eq_index :
    (∀ (st : AppState) (x y : ℝ),
       st.textInputMode = false → st.tool ≠ Tool.selection →
       handleMouseDown st x y =
         { st with
           elements := st.elements ++
             [createElement st.elements.length x y x y (toolToElType st.tool)],
           action := ActionState.drawing } ∧
       (createElement st.elements.length x y x y (toolToElType st.tool)).id
         = st.elements.length ∧
       (createElement st.elements.length x y x y (toolToElType st.tool)).x1 = x ∧
       (createElement st.elements.length x y x y (toolToElType st.tool)).y1 = y ∧
       (createElement st.elements.length x y x y (toolToElType st.tool)).x2 = x ∧
       (createElement st.elements.length x y x y (toolToElType st.tool)).y2 = y) ∧
    (∀ st : AppState, Reachable st →
       idsAligned st.elements ∧ idsAligned st.currentState) := by
  constructor
  · intro st x y h1 h2
    refine ⟨?_, rfl, rfl, rfl, rfl, rfl⟩
    unfold handleMouseDown
    rw [if_neg (by simp [h1]), if_neg h2]
  · intro st h
    exact ⟨(reachable_sceneInvariant h).1, (reachable_sceneInvariant h).2.1⟩

/-- Witness for the PointerDown claim: from the initial state (line
tool, text mode off) a PointerDown at (3,4) appends the zero-size line
with id 0 and enters `drawing`; the id alignment holds at the initial
state, which is reachable. -/
theorem pointerdown_draw_witness :
    handleMouseDown initialState 3 4 =
      { initialState with
        elements := [createElement 0 3 4 3 4 ElType.line],
        action := ActionState.drawing } ∧
    idsAligned initialState.elements :=
  ⟨(pointerdown_draw_appends_id_eq_index.1 initialState 3 4 rfl
      (by simp [initialState])).1,
    (pointerdown_draw_appends_id_eq_index.2 initialState Reachable.init).1⟩

/-- Counterexample to C6 as stated: with text-input mode armed the tool
is still Line, yet a PointerDown creates no shape and does not enter
`drawing` — it only materializes the external text input and disarms
the mode. -/
theorem pointerdown_textmode_creates_no_shape :
    stTextArmed.tool = Tool.line ∧
    (handleMouseDown stTextArmed 5 5).elements = [] ∧
    (handleMouseDown stTextArmed 5 5).action = ActionState.idle ∧
    (handleMouseDown stTextArmed 5 5).textInputMode = false := by
  refine ⟨rfl, ?_, ?_, ?_⟩ <;> simp [handleMouseDown, stTextArmed, initialState]

/-- C8 (amended): a PointerMove at (cx,cy) while the action is `moving`
with a selected shape and the selection tool still active rebuilds the
shape at its id with anchor `(cx − offsetX, cy − offsetY)` and unchanged
width and height (in the second variant the moving branch runs only
under `tool = selection`); in the §8 scenario, grabbing the
(10,10)-(50,50) line at (30,30) and dragging to (80,80) translates it by
(+50,+50) to coordinates (60,60)-(100,100). -/
theorem pointermove_moving_translates_under_selection :
    (∀ (st : AppState) (cx cy : ℝ) (se : Element),
       st.tool = Tool.selection → st.action = ActionState.moving →
       st.selectedElement = some se → se.id ≤ st.currentState.length →
       ∃ st', handleMouseMove st cx cy = some st' ∧
         st'.currentState[se.id]? = some (createElement se.id
           (cx - se.offsetX.getD 0) (cy - se.offsetY.getD 0)
           (cx - se.offsetX.getD 0 + (se.x2 - se.x1))
           (cy - se.offsetY.getD 0 + (se.y2 - se.y1)) se.etype) ∧
         (createElement se.id
           (cx - se.offsetX.getD 0) (cy - se.offsetY.getD 0)
           (cx - se.offsetX.getD 0 + (se.x2 - se.x1))
           (cy - se.offsetY.getD 0 + (se.y2 - se.y1)) se.etype).x1
             = cx - se.offsetX.getD 0 ∧
         (createElement se.id
           (cx - se.offsetX.getD 0) (cy - se.offsetY.getD 0)
           (cx - se.offsetX.getD 0 + (se.x2 - se.x1))
           (cy - se.offsetY.getD 0 + (se.y2 - se.y1)) se.etype).y1
             = cy - se.offsetY.getD 0 ∧
         (createElement se.id
           (cx - se.offsetX.getD 0) (cy - se.offsetY.getD 0)
           (cx - se.offsetX.getD 0 + (se.x2 - se.x1))
           (cy - se.offsetY.getD 0 + (se.y2 - se.y1)) se.etype).x2 -
         (createElement se.id
           (cx - se.offsetX.getD 0) (cy - se.offsetY.getD 0)
           (cx - se.offsetX.getD 0 + (se.x2 - se.x1))
           (cy - se.offsetY.getD 0 + (se.y2 - se.y1)) se.etype).x1
             = se.x2 - se.x1 ∧
         (createElement se.id
           (cx - se.offsetX.getD 0) (cy - se.offsetY.getD 0)
           (cx - se.offsetX.getD 0 + (se.x2 - se.x1))
           (cy - se.offsetY.getD 0 + (se.y2 - se.y1)) se.etype).y2 -
         (createElement se.id
           (cx - se.offsetX.getD 0) (cy - se.offsetY.getD 0)
           (cx - se.offsetX.getD 0 + (se.x2 - se.x1))
           (cy - se.offsetY.getD 0 + (se.y2 - se.y1)) se.etype).y1
             = se.y2 - se.y1) ∧
    finalCoords (handleMouseMove (handleMouseDown stMoveStart 30 30) 80 80)
      = some [(60, 60, 100, 100)] := by
  constructor
  · intro st cx cy se h1 h2 h3 h4
    obtain ⟨copy, hj⟩ := jsArraySet_isSome (createElement se.id
      (cx - se.offsetX.getD 0) (cy - se.offsetY.getD 0)
      (cx - se.offsetX.getD 0 + (se.x2 - se.x1))
      (cy - se.offsetY.getD 0 + (se.y2 - se.y1)) se.etype) h4
    have hmm : handleMouseMove st cx cy = some { st with
        currentState := copy,
        history := (saveState st.history st.currentIndex copy).1,
        currentIndex := (saveState st.history st.currentIndex copy).2 } := by
      unfold handleMouseMove
      rw [if_pos h1, if_pos h2, h3]
      show updateElement st se.id
        (cx - se.offsetX.getD 0) (cy - se.offsetY.getD 0)
        (cx - se.offsetX.getD 0 + (se.x2 - se.x1))
        (cy - se.offsetY.getD 0 + (se.y2 - se.y1)) se.etype = _
      simp only [updateElement, hj]
      rw [h3]
    refine ⟨_, hmm, ?_, rfl, rfl, ?_, ?_⟩
    rotate_left
    · show cx - se.offsetX.getD 0 + (se.x2 - se.x1) - (cx - se.offsetX.getD 0)
        = se.x2 - se.x1
      ring
    · show cy - se.offsetY.getD 0 + (se.y2 - se.y1) - (cy - se.offsetY.getD 0)
        = se.y2 - se.y1
      ring
    show copy[se.id]? = some _
    unfold jsArraySet at hj
    split at hj
    · rename_i hlt
      cases hj
      exact List.getElem?_set_eq_of_lt _ hlt
    · split at hj
      · rename_i hne heq
        cases hj
        rw [heq]
        simp
      · exact absurd hj (by simp)
  · rw [grab_step, move_step]
    simp [finalCoords, handleMouseUp, stAfterMove, sceneCoords, elMoved,
      createElement]

/-- Witness for the move claim: at the concrete mid-drag state
`stMovingSelection` (selection tool, action moving, the grabbed line
selected with offsets (20,20)) a PointerMove to (80,80) rebuilds the
shape at id 0 with anchor (60,60) and unchanged width and height 40. -/
theorem pointermove_moving_translates_witness :
    ∃ st', handleMouseMove stMovingSelection 80 80 = some st' ∧
      st'.currentState[elMoveGrabbed.id]? = some (createElement elMoveGrabbed.id
        (80 - elMoveGrabbed.offsetX.getD 0) (80 - elMoveGrabbed.offsetY.getD 0)
        (80 - elMoveGrabbed.offsetX.getD 0 + (elMoveGrabbed.x2 - elMoveGrabbed.x1))
        (80 - elMoveGrabbed.offsetY.getD 0 + (elMoveGrabbed.y2 - elMoveGrabbed.y1))
        elMoveGrabbed.etype) ∧
      (createElement elMoveGrabbed.id
        (80 - elMoveGrabbed.offsetX.getD 0) (80 - elMoveGrabbed.offsetY.getD 0)
        (80 - elMoveGrabbed.offsetX.getD 0 + (elMoveGrabbed.x2 - elMoveGrabbed.x1))
        (80 - elMoveGrabbed.offsetY.getD 0 + (elMoveGrabbed.y2 - elMoveGrabbed.y1))
        elMoveGrabbed.etype).x1 = 80 - elMoveGrabbed.offsetX.getD 0 ∧
      (createElement elMoveGrabbed.id
        (80 - elMoveGrabbed.offsetX.getD 0) (80 - elMoveGrabbed.offsetY.getD 0)
        (80 - elMoveGrabbed.offsetX.getD 0 + (elMoveGrabbed.x2 - elMoveGrabbed.x1))
        (80 - elMoveGrabbed.offsetY.getD 0 + (elMoveGrabbed.y2 - elMoveGrabbed.y1))
        elMoveGrabbed.etype).y1 = 80 - elMoveGrabbed.offsetY.getD 0 ∧
      (createElement elMoveGrabbed.id
        (80 - elMoveGrabbed.offsetX.getD 0) (80 - elMoveGrabbed.offsetY.getD 0)
        (80 - elMoveGrabbed.offsetX.getD 0 + (elMoveGrabbed.x2 - elMoveGrabbed.x1))
        (80 - elMoveGrabbed.offsetY.getD 0 + (elMoveGrabbed.y2 - elMoveGrabbed.y1))
        elMoveGrabbed.etype).x2 -
      (createElement elMoveGrabbed.id
        (80 - elMoveGrabbed.offsetX.getD 0) (80 - elMoveGrabbed.offsetY.getD 0)
        (80 - elMoveGrabbed.offsetX.getD 0 + (elMoveGrabbed.x2 - elMoveGrabbed.x1))
        (80 - elMoveGrabbed.offsetY.getD 0 + (elMoveGrabbed.y2 - elMoveGrabbed.y1))
        elMoveGrabbed.etype).x1 = elMoveGrabbed.x2 - elMoveGrabbed.x1 ∧
      (createElement elMoveGrabbed.id
        (80 - elMoveGrabbed.offsetX.getD 0) (80 - elMoveGrabbed.offsetY.getD 0)
        (80 - elMoveGrabbed.offsetX.getD 0 + (elMoveGrabbed.x2 - elMoveGrabbed.x1))
        (80 - elMoveGrabbed.offsetY.getD 0 + (elMoveGrabbed.y2 - elMoveGrabbed.y1))
        elMoveGrabbed.etype).y2 -
      (createElement elMoveGrabbed.id
        (80 - elMoveGrabbed.offsetX.getD 0) (80 - elMoveGrabbed.offsetY.getD 0)
        (80 - elMoveGrabbed.offsetX.getD 0 + (elMoveGrabbed.x2 - elMoveGrabbed.x1))
        (80 - elMoveGrabbed.offsetY.getD 0 + (elMoveGrabbed.y2 - elMoveGrabbed.y1))
        elMoveGrabbed.etype).y1 = elMoveGrabbed.y2 - elMoveGrabbed.y1 :=
  pointermove_moving_translates_under_selection.1 stMovingSelection 80 80
    elMoveGrabbed rfl rfl rfl
    (by simp [elMoveGrabbed, elMove, createElement, stMovingSelection,
      initialState])

/-- Counterexample to C8 as stated, on two counts.  First, the §8
scenario produces coordinates (60,60)-(100,100), not the claimed
(60,60)-(110,110): translating the (10,10)-(50,50) line by (+50,+50)
keeps its 40x40 extent.  Second, when the tool has been switched away
from Selection mid-drag (state `stMovingLineTool`: tool Line, action
moving, a shape selected), PointerMove leaves the state unchanged — no
rebuild happens although the claim, quantifying over every state with
action Moving, demands an anchor move to pointer − offset
(99 − 20 = 79 ≠ 10). -/
theorem pointermove_moving_claim_counterexample :
    finalCoords (handleMouseMove (handleMouseDown stMoveStart 30 30) 80 80)
      = some [(60, 60, 100, 100)] ∧
    finalCoords (handleMouseMove (handleMouseDown stMoveStart 30 30) 80 80)
      ≠ some [(60, 60, 110, 110)] ∧
    stMovingLineTool.action = ActionState.moving ∧
    stMovingLineTool.selectedElement = some elMoveGrabbed ∧
    handleMouseMove stMovingLineTool 99 99 = some stMovingLineTool ∧
    (99 : ℝ) - elMoveGrabbed.offsetX.getD 0 ≠ elMove.x1 := by
  have hpipe : finalCoords
      (handleMouseMove (handleMouseDown stMoveStart 30 30) 80 80)
      = some [(60, 60, 100, 100)] := by
    rw [grab_step, move_step]
    simp [finalCoords, handleMouseUp, stAfterMove, sceneCoords, elMoved,
      createElement]
  refine ⟨hpipe, ?_, rfl, rfl, ?_, ?_⟩
  · rw [hpipe]
    simp
  · unfold handleMouseMove
    rw [if_neg (by simp [stMovingLineTool, initialState]),
      if_neg (by simp [stMovingLineTool, initialState])]
  · simp [elMoveGrabbed, elMove, createElement]
    norm_num
